import Mathlib

/-!
Verification of the avro-idl core: a shallow embedding of the AST types
(`src/ast.rs`), the linker (`src/linker.rs`) and the grammar / import
flattening layer (`src/lexer.rs`), together with theorems settling the
specification claims about them. Definitions come first, theorems follow.
-/

set_option maxRecDepth 100000

namespace AvroIdl

/-- Rust `String`; alias used inside inductive declarations where a
constructor of the same name would shadow the type. -/
abbrev Str := String

/-- Rust `i32`. Overflow panics of `str::parse::<i32>` are not modelled;
every input considered here is in range. -/
abbrev i32 := Int

/-- Rust `i64`. -/
abbrev i64 := Int

/-- Rust `f32`. The lexer only ever produces floats by parsing decimal
literals, so they are modelled as the exact rational value of the literal. -/
abbrev f32 := Rat

/-- Rust `f64`, modelled like `f32`. -/
abbrev f64 := Rat

/-- `HasDefault<T>` from src/ast.rs: tri-state default. -/
inductive HasDefault (T : Type) where
  | Default : Option T → HasDefault T
  | None : HasDefault T
deriving DecidableEq

/-- `HasDefault::map` from src/ast.rs. -/
def HasDefault.map {T U : Type} (self : HasDefault T) (mapping : T → U) : HasDefault U :=
  match self with
  | .Default (some value) => .Default (some (mapping value))
  | .Default none => .Default none
  | .None => .None

/-- `Literal` from src/ast.rs. -/
inductive Literal where
  | Int : i32 → Literal
  | Long : i64 → Literal
  | Float : f32 → Literal
  | Double : f64 → Literal
  | Boolean : Bool → Literal
  | String : Str → Literal
  | Null : Literal
deriving DecidableEq

/-- `RawField` from src/ast.rs: the raw schema tree produced by parsing.
`Box<RawField>` in `Array` is modelled by direct nesting. -/
inductive RawField where
  | Protocol : Option Str → List RawField → Option Str → Option Str → RawField
  | Int : Option Str → HasDefault i32 → Option Str → RawField
  | Long : Option Str → HasDefault i64 → Option Str → RawField
  | Float : Option Str → HasDefault f32 → Option Str → RawField
  | Double : Option Str → HasDefault f64 → Option Str → RawField
  | Boolean : Option Str → HasDefault Bool → Option Str → RawField
  | String : Option Str → HasDefault Str → Option Str → RawField
  | Enum : Option Str → List Str → HasDefault Str → Option Str → Option Str → RawField
  | Record : Option Str → List RawField → Option Str → Option Str → RawField
  | Union : Option Str → List RawField → HasDefault Literal → Option Str → RawField
  | Array : Option Str → RawField → HasDefault Literal → Option Str → RawField
  | Null : RawField
  | Unresolved : Option Str → Str → Option Str → RawField
  | Import : Str → RawField

/-- `Field` from src/ast.rs: the resolved schema tree produced by linking. -/
inductive Field where
  | Protocol : Option Str → List Field → Option Str → Option Str → Field
  | Int : Option Str → HasDefault i32 → Option Str → Field
  | Long : Option Str → HasDefault i64 → Option Str → Field
  | Float : Option Str → HasDefault f32 → Option Str → Field
  | Double : Option Str → HasDefault f64 → Option Str → Field
  | Boolean : Option Str → HasDefault Bool → Option Str → Field
  | String : Option Str → HasDefault Str → Option Str → Field
  | Enum : Option Str → List Str → HasDefault Str → Option Str → Option Str → Field
  | Record : Option Str → List Field → Option Str → Option Str → Field
  | Union : Option Str → List Field → HasDefault Literal → Option Str → Field
  | Array : Option Str → Field → HasDefault Literal → Option Str → Field
  | RecordReference : Option Str → Str → Option Str → Field
  | EnumReference : Option Str → Str → HasDefault Str → Option Str → Field
  | Null : Field

namespace RawField

/-- `RawField::is_resolved` from src/ast.rs: `matches!(self, RawField::Unresolved(..))`. -/
def is_resolved : RawField → Bool
  | .Unresolved _ _ _ => true
  | _ => false

/-- `RawField::name` from src/ast.rs. -/
def name : RawField → Option Str
  | .Protocol n _ _ _ => n
  | .Int n _ _ => n
  | .Long n _ _ => n
  | .Float n _ _ => n
  | .Double n _ _ => n
  | .Boolean n _ _ => n
  | .String n _ _ => n
  | .Record n _ _ _ => n
  | .Enum n _ _ _ _ => n
  | .Unresolved n _ _ => n
  | .Union n _ _ _ => n
  | .Array n _ _ _ => n
  | .Null => none
  | .Import _ => none

/-- `RawField::remove_default` from src/ast.rs. -/
def remove_default : RawField → RawField
  | .Int n _ _ => .Int n .None none
  | .Long n _ _ => .Long n .None none
  | .Float n _ _ => .Float n .None none
  | .Double n _ _ => .Double n .None none
  | .Boolean n _ _ => .Boolean n .None none
  | .String n _ _ => .String n .None none
  | .Enum n values _ ns _ => .Enum n values .None ns none
  | f => f

/-- The search loop inside `RawField::find_field_by_name` from src/ast.rs. -/
def findLoop (field_name : Str) : List RawField → Option RawField
  | [] => none
  | field :: rest =>
    match field.name with
    | none => findLoop field_name rest
    | some cur_name =>
      if cur_name = field_name then some field.remove_default
      else findLoop field_name rest

/-- `RawField::find_field_by_name` from src/ast.rs: looks a field up among a
protocol's top-level declarations and strips its default. -/
def find_field_by_name (self : RawField) (field_name : Str) : Option RawField :=
  match self with
  | .Protocol _ fields _ _ => findLoop field_name fields
  | _ => none

end RawField

/-- `AvroError` from src/error.rs. -/
inductive AvroError where
  | InvalidASTDataType : Str → AvroError
  | FailedParsing : Str → AvroError
  | MissingName : Str → AvroError
  | UndefinedReference : Str → AvroError
deriving DecidableEq

/-- Why a Rust panic occurred in the modelled code. -/
inductive PanicCause where
  /-- `Result::unwrap()` called on an `Err` carrying this error. -/
  | unwrapErr : AvroError → PanicCause
  /-- The `lexer.parse(src).unwrap()` in `parse_idl` applied to a chumsky
  parse error (the `TODO: Fix this weird bit` in src/lexer.rs). -/
  | unwrapParseError : PanicCause
  /-- `Option::expect` / `Result::expect` failed with this message. -/
  | expectFail : Str → PanicCause
deriving DecidableEq

/-- Outcome of running a piece of the modelled Rust code: a returned value,
a returned `Err`, a panic, or exhaustion of the recursion fuel used to model
the unbounded recursion of `parse_idl` over imports. -/
inductive Res (α : Type) where
  | ok : α → Res α
  | err : AvroError → Res α
  | panicked : PanicCause → Res α
  | noFuel : Res α
deriving DecidableEq

/-- Pure `map` on `Res`: transform the value of an `ok` result. -/
def Res.map {α β : Type} (r : Res α) (f : α → β) : Res β :=
  match r with
  | .ok a => .ok (f a)
  | .err e => .err e
  | .panicked c => .panicked c
  | .noFuel => .noFuel

namespace LinkParser

/-- `self.parse_recurse(..).unwrap()` from src/linker.rs: an `Err` result
becomes a panic, a panic propagates (unwinds). -/
def unwrapBind {α β : Type} (r : Res α) (k : α → Res β) : Res β :=
  match r with
  | .ok a => k a
  | .err e => .panicked (.unwrapErr e)
  | .panicked c => .panicked c
  | .noFuel => .noFuel

mutual

/-- `LinkParser::parse_recurse` from src/linker.rs. -/
def parse_recurse (protocol : RawField) : RawField → Res Field
  | .Int name default docstring => .ok (.Int name default docstring)
  | .Long name default docstring => .ok (.Long name default docstring)
  | .Float name default docstring => .ok (.Float name default docstring)
  | .Double name default docstring => .ok (.Double name default docstring)
  | .Boolean name default docstring => .ok (.Boolean name default docstring)
  | .String name default docstring => .ok (.String name default docstring)
  | .Enum name values default namespace_ docstring =>
    .ok (.Enum name values default namespace_ docstring)
  | .Record name fields namespace_ docstring =>
    unwrapBind (recurseList protocol fields) fun linked_fields =>
      .ok (.Record name linked_fields namespace_ docstring)
  | .Unresolved _name value docstring =>
    match protocol.find_field_by_name value with
    | none =>
      .err (.UndefinedReference ("Field of type \x27" ++ value ++ "\x27 cannot be found!"))
    | some ref_field =>
      match ref_field with
      | .Record _ _ _ _ => .ok (.RecordReference _name value docstring)
      | .Enum _ _ default _ _ => .ok (.EnumReference _name value default docstring)
      | _ => .err (.InvalidASTDataType "Only Record and Enum are valid references!")
  | .Union name fields default docstring =>
    unwrapBind (recurseList protocol fields) fun linked_fields =>
      .ok (.Union name linked_fields default docstring)
  | .Protocol _ _ _ _ =>
    .err (.InvalidASTDataType "\x27Protocol\x27 can only be declared once per file!")
  | .Array name inner_field default docstring =>
    unwrapBind (parse_recurse protocol inner_field) fun inner =>
      .ok (.Array name inner default docstring)
  | .Import _ =>
    .err (.InvalidASTDataType "\x27Import\x27 should have been resolved previous to Linking!")
  | .Null => .ok .Null

/-- The `fields.into_iter().map(|f| self.parse_recurse(protocol, f).unwrap()).collect()`
pattern from src/linker.rs: each element's result is unwrapped, so the first
`Err` turns into a panic. -/
def recurseList (protocol : RawField) : List RawField → Res (List Field)
  | [] => .ok []
  | f :: fs =>
    unwrapBind (parse_recurse protocol f) fun x =>
      unwrapBind (recurseList protocol fs) fun xs =>
        .ok (x :: xs)

end

/-- `LinkParser::parse` from src/linker.rs. Note the body maps the top-level
fields through `parse_recurse(..).unwrap()`, so any failure inside
`parse_recurse` is a panic, never a returned `Err`; only a non-`Protocol`
argument produces a returned error. -/
def parse (protocol : RawField) : Res Field :=
  match protocol with
  | .Protocol name fields namespace_ docstring =>
    unwrapBind (recurseList (.Protocol name fields namespace_ docstring) fields)
      fun linked_fields => .ok (.Protocol name linked_fields namespace_ docstring)
  | _ => .err (.InvalidASTDataType "Expected a protocol")

end LinkParser

mutual

/-- True when the tree contains no `Unresolved`, no `Import` and no
`Protocol` node, the precondition of claim C9. -/
def linkClean : RawField → Bool
  | .Protocol _ _ _ _ => false
  | .Unresolved _ _ _ => false
  | .Import _ => false
  | .Record _ fs _ _ => linkCleanList fs
  | .Union _ fs _ _ => linkCleanList fs
  | .Array _ f _ _ => linkClean f
  | _ => true

/-- `linkClean` on every element of a list. -/
def linkCleanList : List RawField → Bool
  | [] => true
  | f :: fs => linkClean f && linkCleanList fs

end

mutual

/-- Modelled from the spec (claim C9's wording): the same-shaped `Field`
counterpart of a `RawField`, with name, default, namespace, docstring and
child order unchanged. On the variants excluded by `linkClean` (`Protocol`,
`Unresolved`, `Import`) it returns the junk value `Field.Null`. -/
def resolvedCounterpart : RawField → Field
  | .Int n d ds => .Int n d ds
  | .Long n d ds => .Long n d ds
  | .Float n d ds => .Float n d ds
  | .Double n d ds => .Double n d ds
  | .Boolean n d ds => .Boolean n d ds
  | .String n d ds => .String n d ds
  | .Enum n vs d ns ds => .Enum n vs d ns ds
  | .Record n fs ns ds => .Record n (resolvedCounterpartList fs) ns ds
  | .Union n fs d ds => .Union n (resolvedCounterpartList fs) d ds
  | .Array n f d ds => .Array n (resolvedCounterpart f) d ds
  | .Null => .Null
  | .Protocol _ _ _ _ => .Null
  | .Unresolved _ _ _ => .Null
  | .Import _ => .Null

/-- `resolvedCounterpart` mapped over a list. -/
def resolvedCounterpartList : List RawField → List Field
  | [] => []
  | f :: fs => resolvedCounterpart f :: resolvedCounterpartList fs

end

/-! Model of the chumsky parser combinators used by src/lexer.rs. A parser
is a backtracking function from the remaining input to an optional pair of
output value and rest of the input; `none` is a parse failure (the error
details chumsky tracks are irrelevant here because `parse_idl` panics before
ever formatting them, see claim C3). -/

/-- A chumsky `Parser<char, α, Error = Simple<char>>`. -/
structure P (α : Type) where
  run : List Char → Option (α × List Char)

/-- `just(c)`: match exactly the character `c` and output it. -/
def just (c : Char) : P Char :=
  ⟨fun s =>
    match s with
    | c' :: rest => if c' = c then some (c, rest) else none
    | [] => none⟩

/-- `just("..")` on a multi-character sequence (used only under `.not()`). -/
def justSeq (cs : List Char) : P (List Char) :=
  ⟨fun s => if cs.isPrefixOf s then some (cs, s.drop cs.length) else none⟩

/-- `none_of(c)`: match any character other than `c`. -/
def none_of (c : Char) : P Char :=
  ⟨fun s =>
    match s with
    | c' :: rest => if c' = c then none else some (c', rest)
    | [] => none⟩

/-- `end()`: succeed exactly at the end of the input. -/
def endP : P Unit :=
  ⟨fun s =>
    match s with
    | [] => some ((), [])
    | _ :: _ => none⟩

namespace P

/-- `.map(f)`. -/
def map {α β : Type} (p : P α) (f : α → β) : P β :=
  ⟨fun s => (p.run s).bind fun r => some (f r.1, r.2)⟩

/-- `.to(b)`. -/
def to_ {α β : Type} (p : P α) (b : β) : P β :=
  ⟨fun s => (p.run s).bind fun r => some (b, r.2)⟩

/-- `.ignored()`. -/
def ignored {α : Type} (p : P α) : P Unit :=
  ⟨fun s => (p.run s).bind fun r => some ((), r.2)⟩

/-- `.then(q)`: sequence, keeping both outputs. -/
def then_ {α β : Type} (p : P α) (q : P β) : P (α × β) :=
  ⟨fun s => (p.run s).bind fun r => (q.run r.2).bind fun r2 => some ((r.1, r2.1), r2.2)⟩

/-- `.then_ignore(q)`. -/
def then_ignore {α β : Type} (p : P α) (q : P β) : P α :=
  ⟨fun s => (p.run s).bind fun r => (q.run r.2).bind fun r2 => some (r.1, r2.2)⟩

/-- `.ignore_then(q)`. -/
def ignore_then {α β : Type} (p : P α) (q : P β) : P β :=
  ⟨fun s => (p.run s).bind fun r => (q.run r.2).bind fun r2 => some (r2.1, r2.2)⟩

/-- First-`some` choice, the underlying operation of `.or`. -/
def orRun {α : Type} (x y : Option α) : Option α :=
  match x with
  | some r => some r
  | none => y

/-- `.or(q)`: try `p`; on failure backtrack and try `q`. -/
def or {α : Type} (p q : P α) : P α :=
  ⟨fun s => orRun (p.run s) (q.run s)⟩

/-- `.or_not()`. -/
def or_not {α : Type} (p : P α) : P (Option α) :=
  ⟨fun s =>
    match p.run s with
    | some r => some (some r.1, r.2)
    | none => some (none, s)⟩

/-- `.or_else(|_| Ok(v))`: recover from failure with `v`, consuming nothing. -/
def or_else {α : Type} (p : P α) (v : α) : P α :=
  ⟨fun s =>
    match p.run s with
    | some r => some r
    | none => some (v, s)⟩

/-- `.not()`: succeed (consuming one character) exactly when `p` fails here. -/
def not {α : Type} (p : P α) : P Char :=
  ⟨fun s =>
    match p.run s with
    | some _ => none
    | none =>
      match s with
      | c :: rest => some (c, rest)
      | [] => none⟩

/-- Greedy iteration for `.repeated()`, fuelled by the input length (every
iteration of the source's `repeated` consumes at least one character; a
non-consuming iteration stops, which no parser in this grammar triggers). -/
def repeatedCore {α : Type} (p : P α) : Nat → List Char → List α × List Char
  | 0, s => ([], s)
  | n + 1, s =>
    match p.run s with
    | some (a, s') =>
      if s'.length < s.length then
        let r := repeatedCore p n s'
        (a :: r.1, r.2)
      else ([], s)
    | none => ([], s)

/-- `.repeated()`: zero or more, greedy. -/
def repeated {α : Type} (p : P α) : P (List α) :=
  ⟨fun s => some (repeatedCore p (s.length + 1) s)⟩

/-- `.separated_by(sep)`: zero or more `p`, separated by `sep`. -/
def separated_by {α β : Type} (p : P α) (sep : P β) : P (List α) :=
  ⟨fun s =>
    match p.run s with
    | none => some ([], s)
    | some (a, s1) =>
      match ((sep.ignore_then p).repeated).run s1 with
      | some (as, s2) => some (a :: as, s2)
      | none => some ([a], s1)⟩

/-- Whitespace as tested by `.padded()`. -/
def wsChar (c : Char) : Bool := c == ' ' || c == '\t' || c == '\n' || c == '\r'

/-- Drop leading whitespace. -/
def skipWs : List Char → List Char
  | [] => []
  | c :: rest => if wsChar c then skipWs rest else c :: rest

/-- `.padded()`: ignore whitespace before and after `p`. -/
def padded {α : Type} (p : P α) : P α :=
  ⟨fun s => (p.run (skipWs s)).bind fun r => some (r.1, skipWs r.2)⟩

/-- `.collect::<String>()` on a parser producing characters. -/
def collectStr (p : P (List Char)) : P Str :=
  ⟨fun s => (p.run s).bind fun r => some (String.mk r.1, r.2)⟩

/-- `.chain` of an optional character with a character list. -/
def chainOL (p : P (Option Char)) (q : P (List Char)) : P (List Char) :=
  (p.then_ q).map fun v =>
    match v.1 with
    | some c => c :: v.2
    | none => v.2

/-- `.chain` of a character with a digit string. -/
def chainCS (p : P Char) (q : P Str) : P (List Char) :=
  (p.then_ q).map fun v => v.1 :: v.2.data

/-- `.chain` of two character lists. -/
def chainLL (p q : P (List Char)) : P (List Char) :=
  (p.then_ q).map fun v => v.1 ++ v.2

end P

/-- `choice((..))`: ordered alternatives. -/
def choice {α : Type} : List (P α) → P α
  | [] => ⟨fun _ => none⟩
  | p :: ps => p.or (choice ps)

/-- Start of a chumsky `text::ident()`: ASCII letter or underscore. -/
def isIdentStartChar (c : Char) : Bool := c.isAlpha || c == '_'

/-- Continuation of a chumsky `text::ident()`: ASCII alphanumeric or underscore. -/
def isIdentContChar (c : Char) : Bool := c.isAlphanum || c == '_'

/-- A non-empty character list forming a valid `text::ident()` identifier. -/
def isIdentList (cs : List Char) : Bool :=
  match cs with
  | [] => false
  | c :: t => isIdentStartChar c && t.all isIdentContChar

/-- `text::ident()`: a C-style identifier. -/
def textIdent : P Str :=
  ⟨fun s =>
    match s with
    | c :: rest =>
      if isIdentStartChar c then
        some (String.mk (c :: rest.takeWhile isIdentContChar), rest.dropWhile isIdentContChar)
      else none
    | [] => none⟩

/-- `text::keyword(k)`: an identifier that must equal `k`. -/
def textKeyword (k : Str) : P Unit :=
  ⟨fun s => (textIdent.run s).bind fun r => if r.1 = k then some ((), r.2) else none⟩

/-- Decimal digit, as tested by `text::digits(10)`. -/
def isDigitChar (c : Char) : Bool := c.isDigit

/-- `text::digits(10)`: one or more digits (leading zeros allowed). -/
def textDigits : P Str :=
  ⟨fun s =>
    match s.takeWhile isDigitChar with
    | [] => none
    | ds => some (String.mk ds, s.dropWhile isDigitChar)⟩

/-- `text::int(10)`: an unsigned integer with no leading zero, as a
character list (it is only used under `.chain`). -/
def textIntChars : P (List Char) :=
  ⟨fun s =>
    match s with
    | c :: rest =>
      if c = '0' then some (['0'], rest)
      else if isDigitChar c then
        some (c :: rest.takeWhile isDigitChar, rest.dropWhile isDigitChar)
      else none
    | [] => none⟩

/-! Value-parsing helpers used by the factory closures in src/lexer.rs. -/

/-- Numeric value of a digit string. -/
def digitsToNat (cs : List Char) : Nat :=
  cs.foldl (fun acc c => acc * 10 + (c.toNat - 48)) 0

/-- Rust `str::parse::<i32>().unwrap()` on the unsigned digit strings the
grammar produces. -/
def parseI32 (s : Str) : i32 := Int.ofNat (digitsToNat s.data)

/-- Rust `str::parse::<i64>().unwrap()`, likewise. -/
def parseI64 (s : Str) : i64 := Int.ofNat (digitsToNat s.data)

/-- Rust `str::parse::<bool>().unwrap()` on `"true"` / `"false"`. -/
def parseBool (s : Str) : Bool := s = "true"

/-- Value of a `digits.digits` decimal-literal body as a rational. -/
def decimalCore (cs : List Char) : Rat :=
  match cs.dropWhile isDigitChar with
  | '.' :: fracs =>
    (digitsToNat (cs.takeWhile isDigitChar) : Rat)
      + (digitsToNat (fracs.takeWhile isDigitChar) : Rat)
        / ((10 : Rat) ^ (fracs.takeWhile isDigitChar).length)
  | _ => (digitsToNat (cs.takeWhile isDigitChar) : Rat)

/-- Rust `str::parse::<f32>().unwrap()` and `::<f64>` on the decimal
literals the grammar produces, as the literal's exact rational value. -/
def parseFloat (s : Str) : Rat :=
  match s.data with
  | '-' :: rest => -(decimalCore rest)
  | cs => decimalCore cs

/-! The grammar of src/lexer.rs. The local bindings of the source methods
are lifted to top-level definitions with the same structure. -/

/-- Rust `str::trim()` on the whitespace the docstrings here contain,
computed on the character list (the built-in `String.trim` works on UTF-8
byte positions, which the kernel cannot evaluate). -/
def rustTrim (s : Str) : Str :=
  String.mk (((s.data.dropWhile P.wsChar).reverse.dropWhile P.wsChar).reverse)

/-- The docstring sub-grammar (`/** ... */`), written identically in
`nullable_primitive_parser` and `create_chumsky_parser`. -/
def docstringParser : P (Char × Str) :=
  ((((((just '/').then_ignore (just '*')).then_ignore (just '*')).then_
      (((justSeq ['*', '/']).not).repeated.collectStr)).then_ignore
    (just '*')).then_ignore (just '/')).padded

/-- The `default_parser` local of `nullable_primitive_parser`. -/
def npDefault (defaultValueP : P (HasDefault Str)) : P (HasDefault Str) :=
  (((just '=').padded.ignore_then defaultValueP).padded).then_ignore ((just ';').padded)

/-- The `no_default_parser` local of `nullable_primitive_parser`. -/
def npNoDefault : P Unit := (just ';').ignored

/-- The `keyword_parser` local of `nullable_primitive_parser`. -/
def npKeyword (keyword : Str) : P Str :=
  ((textKeyword keyword).padded).ignore_then textIdent.padded

/-- The `keyword_nullable_parser` local of `nullable_primitive_parser`:
nullable shorthand `int?`, `string?`, ... -/
def npKeywordNullable (keyword : Str) : P Str :=
  (((textKeyword keyword).then_ignore (just '?')).padded).ignore_then textIdent.padded

/-- The `primitive_with_default` local of `nullable_primitive_parser`. -/
def npPrimitiveWithDefault (keyword : Str) (defaultValueP : P (HasDefault Str))
    (factory : Str → HasDefault Str → Option Str → RawField) : P RawField :=
  ((docstringParser.or_not.then_ (npKeyword keyword)).then_ (npDefault defaultValueP)).map
    fun v => factory v.1.2 v.2 (v.1.1.map fun ds => rustTrim ds.2)

/-- The `primitive_no_default` local of `nullable_primitive_parser`. -/
def npPrimitiveNoDefault (keyword : Str)
    (factory : Str → HasDefault Str → Option Str → RawField) : P RawField :=
  ((docstringParser.or_not.then_ (npKeyword keyword)).then_ npNoDefault).map
    fun v => factory v.1.2 .None (v.1.1.map fun ds => rustTrim ds.2)

/-- The `primitive_nullable_default` local of `nullable_primitive_parser`. -/
def npNullableDefault (keyword : Str) (defaultValueP : P (HasDefault Str))
    (factory : Str → HasDefault Str → Option Str → RawField) : P RawField :=
  ((docstringParser.or_not.then_ (npKeywordNullable keyword)).then_
    (npDefault defaultValueP)).map
    fun v => factory v.1.2 v.2 (v.1.1.map fun ds => rustTrim ds.2)

/-- The `primitive_nullable_no_default` local of `nullable_primitive_parser`. -/
def npNullableNoDefault (keyword : Str)
    (factory : Str → HasDefault Str → Option Str → RawField) : P RawField :=
  ((docstringParser.or_not.then_ (npKeywordNullable keyword)).then_ npNoDefault).map
    fun v => factory v.1.2 .None (v.1.1.map fun ds => rustTrim ds.2)

/-- `AvroIdlLexer::nullable_primitive_parser` from src/lexer.rs: the four
alternatives in their source priority order. -/
def nullablePrimitiveParser (keyword : Str) (defaultValueP : P (HasDefault Str))
    (primitiveFieldFactory unionFieldFactory :
      Str → HasDefault Str → Option Str → RawField) : P RawField :=
  choice
    [npNullableDefault keyword defaultValueP unionFieldFactory,
     npNullableNoDefault keyword unionFieldFactory,
     npPrimitiveNoDefault keyword primitiveFieldFactory,
     npPrimitiveWithDefault keyword defaultValueP primitiveFieldFactory]

/-- The number sub-grammar
`just('-').or_not().chain(text::int(10)).chain(just('.').chain(text::digits(10))).collect()`
appearing in `create_float_default_parser`, `create_double_default_parser`
and `double_parser` (`from_str::<String>().unwrapped()` and `labelled` are
the identity). -/
def numberString : P Str :=
  (P.chainLL (P.chainOL (just '-').or_not textIntChars)
    (P.chainCS (just '.') textDigits)).collectStr

/-- The default-value sub-grammar of `create_int_default_parser`. -/
def intDefaultValueP : P (HasDefault Str) :=
  ((textDigits.map fun v => HasDefault.Default (some v)).or
    ((textKeyword "null").to_ (HasDefault.Default none))).or_else .None

/-- The default-value sub-grammar of `create_long_default_parser`. -/
def longDefaultValueP : P (HasDefault Str) :=
  ((textDigits.map fun v => HasDefault.Default (some v)).or
    ((textKeyword "null").to_ (HasDefault.Default none))).or_else .None

/-- The default-value sub-grammar of `create_float_default_parser`. -/
def floatDefaultValueP : P (HasDefault Str) :=
  ((numberString.map fun v => HasDefault.Default (some v)).or
    ((textKeyword "null").to_ (HasDefault.Default none))).or_else .None

/-- The default-value sub-grammar of `create_double_default_parser`. -/
def doubleDefaultValueP : P (HasDefault Str) :=
  ((numberString.map fun v => HasDefault.Default (some v)).or
    ((textKeyword "null").to_ (HasDefault.Default none))).or_else .None

/-- The default-value sub-grammar of `create_bool_default_parser`. -/
def boolDefaultValueP : P (HasDefault Str) :=
  (((((textKeyword "true").to_ "true").or ((textKeyword "false").to_ "false")).map
    fun v => HasDefault.Default (some v)).or
    ((textKeyword "null").to_ (HasDefault.Default none))).or_else .None

/-- The default-value sub-grammar of `create_string_default_parser`. -/
def stringDefaultValueP : P (HasDefault Str) :=
  (((((just '"').ignore_then ((none_of '"').repeated.collectStr)).then_ignore
    (just '"')).map fun v => HasDefault.Default (some v)).or
    ((textKeyword "null").to_ (HasDefault.Default none))).or_else .None

/-- `create_int_default_parser` from src/lexer.rs. -/
def createIntDefaultParser : P RawField :=
  nullablePrimitiveParser "int" intDefaultValueP
    (fun name value docstring =>
      .Int (some name) (value.map fun v => parseI32 v) docstring)
    (fun name value docstring =>
      .Union (some name) [.Int none .None none, .Null]
        (value.map fun v => Literal.Int (parseI32 v)) docstring)

/-- `create_long_default_parser` from src/lexer.rs. -/
def createLongDefaultParser : P RawField :=
  nullablePrimitiveParser "long" longDefaultValueP
    (fun name value docstring =>
      .Long (some name) (value.map fun v => parseI64 v) docstring)
    (fun name value docstring =>
      .Union (some name) [.Long none .None none, .Null]
        (value.map fun v => Literal.Long (parseI64 v)) docstring)

/-- `create_float_default_parser` from src/lexer.rs. -/
def createFloatDefaultParser : P RawField :=
  nullablePrimitiveParser "float" floatDefaultValueP
    (fun name value docstring =>
      .Float (some name) (value.map fun v => parseFloat v) docstring)
    (fun name value docstring =>
      .Union (some name) [.Float none .None none, .Null]
        (value.map fun v => Literal.Float (parseFloat v)) docstring)

/-- `create_double_default_parser` from src/lexer.rs. -/
def createDoubleDefaultParser : P RawField :=
  nullablePrimitiveParser "double" doubleDefaultValueP
    (fun name value docstring =>
      .Double (some name) (value.map fun v => parseFloat v) docstring)
    (fun name value docstring =>
      .Union (some name) [.Double none .None none, .Null]
        (value.map fun v => Literal.Double (parseFloat v)) docstring)

/-- `create_bool_default_parser` from src/lexer.rs. -/
def createBoolDefaultParser : P RawField :=
  nullablePrimitiveParser "boolean" boolDefaultValueP
    (fun name value docstring =>
      .Boolean (some name) (value.map fun v => parseBool v) docstring)
    (fun name value docstring =>
      .Union (some name) [.Boolean none .None none, .Null]
        (value.map fun v => Literal.Boolean (parseBool v)) docstring)

/-- `create_string_default_parser` from src/lexer.rs. -/
def createStringDefaultParser : P RawField :=
  nullablePrimitiveParser "string" stringDefaultValueP
    (fun name value docstring => .String (some name) value docstring)
    (fun name value docstring =>
      .Union (some name) [.String none .None none, .Null]
        (value.map Literal.String) docstring)

/-- `create_primitive_parser` from src/lexer.rs. -/
def createPrimitiveParser : P RawField :=
  choice
    [createIntDefaultParser, createLongDefaultParser, createFloatDefaultParser,
     createDoubleDefaultParser, createBoolDefaultParser, createStringDefaultParser]

/-- `double_parser` from src/lexer.rs (returns the number's text). -/
def doubleParser : P Str := numberString

/-- The `protocol_start` local of `create_chumsky_parser`. -/
def cpProtocolStart : P (Unit × Str) :=
  (((textKeyword "protocol").padded.ignored).then_ textIdent).then_ignore
    ((just '\x7b').padded)

/-- The `namespace` annotation local of `create_chumsky_parser`. -/
def cpNamespace : P (Unit × Str) :=
  (((((((just '@').ignored).then_ignore (textKeyword "namespace")).then_ignore
    (just '(')).then_ignore (just '"')).then_
    ((none_of '"').repeated.collectStr)).then_ignore (just '"')).then_ignore (just ')')

/-- The `import` local of `create_chumsky_parser`. -/
def cpImport : P RawField :=
  (((((((textKeyword "import").padded.ignored).then_ignore
    ((textKeyword "idl").padded)).then_ignore (just '"')).then_
    ((none_of '"').repeated)).then_ignore (just '"')).then_ignore
    ((just ';').padded)).map
    fun v => RawField.Import (String.mk v.2)

/-- The `ref_parser` local of `create_chumsky_parser`. -/
def cpRef : P RawField :=
  (((docstringParser.or_not.then_ textIdent).padded.then_ textIdent.padded).then_ignore
    (just ';')).map
    fun v => RawField.Unresolved (some v.2) v.1.2 (v.1.1.map fun ds => rustTrim ds.2)

/-- The `ref_parser_optional` local of `create_chumsky_parser`. -/
def cpRefOptional : P RawField :=
  ((((docstringParser.or_not.then_ textIdent).then_ignore (just '?')).padded.then_
    textIdent.padded).then_ignore (just ';')).map
    fun v =>
      RawField.Union (some v.2) [.Unresolved none v.1.2 none, .Null] .None
        (v.1.1.map fun ds => rustTrim ds.2)

/-- The `enum_parser_plain` local of `create_chumsky_parser`. -/
def cpEnumPlain : P (((Option (Char × Str) × Str) × List Str) × Str) :=
  ((((docstringParser.or_not.then_ignore (textKeyword "enum")).padded.then_
    textIdent).then_ignore ((just '\x7b').padded)).then_
    ((textIdent.padded.then_ignore (just ',')).repeated)).then_ textIdent.padded

/-- The `enum_parser` local of `create_chumsky_parser`. -/
def cpEnum : P RawField :=
  (((((cpEnumPlain.then_ignore ((just '\x7d').padded)).then_ignore
    ((just '=').padded)).then_ textIdent.padded).then_ignore ((just ';').padded)).map
    fun v =>
      RawField.Enum (some v.1.1.1.2) (v.1.1.2 ++ [v.1.2]) (.Default (some v.2)) none
        (v.1.1.1.1.map fun ds => rustTrim ds.2)).or
  ((cpEnumPlain.then_ignore ((just '\x7d').padded)).map
    fun v =>
      RawField.Enum (some v.1.1.2) (v.1.2 ++ [v.2]) .None none
        (v.1.1.1.map fun ds => rustTrim ds.2))

/-- The `unnamed_type_parser` local of `create_chumsky_parser`. -/
def cpUnnamedType : P RawField :=
  (((((((((textKeyword "int").padded.to_ (RawField.Int none .None none)).or
    ((textKeyword "long").padded.to_ (RawField.Long none .None none))).or
    ((textKeyword "float").padded.to_ (RawField.Float none .None none))).or
    ((textKeyword "double").padded.to_ (RawField.Double none .None none))).or
    ((textKeyword "boolean").padded.to_ (RawField.Boolean none .None none))).or
    ((textKeyword "string").padded.to_ (RawField.String none .None none))).or
    ((textKeyword "null").padded.to_ RawField.Null)).or
    (textIdent.padded.map fun value => RawField.Unresolved none value none))

/-- The `mult_unnamed_type_parser` local of `create_chumsky_parser`. -/
def cpMultUnnamedType : P (List RawField) :=
  cpUnnamedType.separated_by ((just ',').padded)

/-- The `array_parser_plain` local of `create_chumsky_parser`. -/
def cpArrayPlain : P (Option (Char × Str) × RawField) :=
  (((docstringParser.or_not.then_ignore (textKeyword "array")).then_ignore
    (just '<')).then_ cpUnnamedType).then_ignore (just '>')

/-- The `array_parser` local of `create_chumsky_parser`. -/
def cpArray : P RawField :=
  ((cpArrayPlain.then_ textIdent.padded).then_ignore (just ';')).map
    fun v => RawField.Array (some v.2) v.1.2 .None (v.1.1.map fun ds => rustTrim ds.2)

/-- The `union_literal_parser` local of `create_chumsky_parser`. -/
def cpUnionLiteral : P Literal :=
  ((((((textKeyword "false").to_ (Literal.Boolean false)).or
    ((textKeyword "true").to_ (Literal.Boolean true))).or
    ((textKeyword "null").to_ Literal.Null)).or
    (doubleParser.map fun value => Literal.Double (parseFloat value))).or
    (textDigits.map fun value => Literal.Int (parseI32 value))).or
    ((((just '"').ignore_then textIdent).then_ignore (just '"')).map Literal.String)
  |>.padded

/-- The `union_parser_plain` local of `create_chumsky_parser`. -/
def cpUnionPlain : P ((Option (Char × Str) × List RawField) × Str) :=
  ((((docstringParser.or_not.then_ignore ((textKeyword "union").padded)).then_ignore
    ((just '\x7b').padded)).then_ cpMultUnnamedType).then_ignore
    ((just '\x7d').padded)).then_ textIdent.padded

/-- The `union_parser` local of `create_chumsky_parser`. -/
def cpUnion : P RawField :=
  ((cpUnionPlain.then_ignore ((just ';').padded)).map
    fun v =>
      RawField.Union (some v.2) v.1.2 .None (v.1.1.map fun ds => rustTrim ds.2)).or
  ((((cpUnionPlain.then_ignore ((just '=').padded)).then_ cpUnionLiteral).then_ignore
    ((just ';').padded)).map
    fun v =>
      RawField.Union (some v.1.2) v.1.1.2
        (match v.2 with
          | Literal.Null => HasDefault.Default none
          | dv => HasDefault.Default (some dv))
        (v.1.1.1.map fun ds => rustTrim ds.2))

/-- The record-contents choice of the `record_parser` local. -/
def cpRecordContents : P (List RawField) :=
  ((((createPrimitiveParser.or cpArray).or cpRef).or cpRefOptional).or cpUnion).repeated

/-- The `record_parser` local of `create_chumsky_parser`. -/
def cpRecord : P RawField :=
  (((((docstringParser.or_not.then_ignore (textKeyword "record")).padded.then_
    textIdent).then_ignore ((just '\x7b').padded)).then_ cpRecordContents).then_ignore
    ((just '\x7d').padded)).map
    fun v => RawField.Record (some v.1.2) v.2 none (v.1.1.map fun ds => rustTrim ds.2)

/-- `create_chumsky_parser` from src/lexer.rs: the whole grammar. -/
def createChumskyParser : P RawField :=
  ((((cpNamespace.or_not.then_ cpProtocolStart).then_
    ((choice [cpImport, cpRecord, cpEnum]).repeated)).then_ignore
    ((just '\x7d').padded)).then_ignore endP).map
    fun v => RawField.Protocol (some v.1.2.2) v.2 (v.1.1.map fun x => x.2) none

/-- The `lexer.parse(src)` call of `parse_idl`: run the grammar on the whole
source (the grammar requires end of input through `end()`, so a success
consumes everything). -/
def topLevelParse (src : Str) : Option RawField :=
  (createChumskyParser.run src.data).map (fun r => r.1)

/-- The declaration loop of `parse_idl` from src/lexer.rs: splice imports in
place, attach the protocol's namespace to the records and enums declared in
this file, pass everything else through. The recursive `self.parse_idl` call
used for imports is passed in as `recurse` (so the loop is structurally
recursive on the declaration list). -/
def flattenValuesF (recurse : Str → List Str → Res RawField)
    (env : List Str → Option Str) (namespace_ : Option Str) (path : List Str) :
    List RawField → Res (List RawField)
  | [] => .ok []
  | val :: rest =>
    match val with
    | .Import import_path =>
      match path with
      | [] => .panicked (.expectFail "No parent folder")
      | _ :: _ =>
        match env (path.dropLast ++ [import_path]) with
        | none => .panicked (.expectFail "Failed to load import reference")
        | some import_src =>
          match recurse import_src (path.dropLast ++ [import_path]) with
          | .ok imported =>
            match imported with
            | .Protocol _ im_values _ _ =>
              (flattenValuesF recurse env namespace_ path rest).map
                fun res => im_values ++ res
            | _ => .err (.InvalidASTDataType "Didn\x27t extract protocol")
          | .err e => .err e
          | .panicked c => .panicked c
          | .noFuel => .noFuel
    | .Record rname rfields _ ds =>
      (flattenValuesF recurse env namespace_ path rest).map
        fun res => .Record rname rfields namespace_ ds :: res
    | .Enum ename evalues edefault _ ds =>
      (flattenValuesF recurse env namespace_ path rest).map
        fun res => .Enum ename evalues edefault namespace_ ds :: res
    | other =>
      (flattenValuesF recurse env namespace_ path rest).map fun res => other :: res

/-- The body of `parse_idl` after the grammar has run on the source: the
weird-bit panic on a grammar error, the protocol destructuring, and the
declaration loop (`recurse` is the recursive `parse_idl` call). -/
def parseIdlStep (recurse : Str → List Str → Res RawField)
    (env : List Str → Option Str) (path : List Str) : Option RawField → Res RawField
  | none => .panicked .unwrapParseError
  | some top =>
    match top with
    | .Protocol name values namespace_ docstring =>
      (flattenValuesF recurse env namespace_ path values).map
        fun res => .Protocol name res namespace_ docstring
    | _ => .err (.InvalidASTDataType "Didn\x27t extract protocol")

/-- `AvroIdlLexer::parse_idl` from src/lexer.rs. Paths are modelled as
component lists (`parent` drops the last component, `push` appends one);
`env` stands for the file system (`read_to_string`); `fuel` bounds the
unbounded import recursion of the source. -/
def parseIdlGo (env : List Str → Option Str) : Nat → Str → List Str → Res RawField
  | 0, _, _ => .noFuel
  | fuel + 1, src, path => parseIdlStep (parseIdlGo env fuel) env path (topLevelParse src)

/-- The declaration loop with the `parse_idl` recursion plugged in. -/
def flattenValues (env : List Str → Option Str) (fuel : Nat)
    (namespace_ : Option Str) (path : List Str) (values : List RawField) :
    Res (List RawField) :=
  flattenValuesF (parseIdlGo env fuel) env namespace_ path values

mutual

/-- Modelled from the spec (claim C5's words): does the tree contain a bare
primitive node (Int/Long/Float/Double/Boolean/String) whose default slot is
`Default(None)` — `DefaultNull` outside the synthesized nullable-union
wrapper? -/
def containsBareDefaultNull : RawField → Bool
  | .Int _ (.Default none) _ => true
  | .Long _ (.Default none) _ => true
  | .Float _ (.Default none) _ => true
  | .Double _ (.Default none) _ => true
  | .Boolean _ (.Default none) _ => true
  | .String _ (.Default none) _ => true
  | .Protocol _ fs _ _ => containsBareDefaultNullList fs
  | .Record _ fs _ _ => containsBareDefaultNullList fs
  | .Union _ fs _ _ => containsBareDefaultNullList fs
  | .Array _ f _ _ => containsBareDefaultNull f
  | _ => false

/-- `containsBareDefaultNull` over a list of subtrees. -/
def containsBareDefaultNullList : List RawField → Bool
  | [] => false
  | f :: fs => containsBareDefaultNull f || containsBareDefaultNullList fs

end

/-! Theorems. First, helper lemmas about the linker's name lookup. -/

/-- When some field of the list is named `T`, `findLoop` returns the first
such field with its default stripped. -/
theorem findLoop_some_of_mem (T : Str) :
    ∀ fields : List RawField, (∃ f ∈ fields, f.name = some T) →
      ∃ f, f ∈ fields ∧ f.name = some T ∧
        RawField.findLoop T fields = some f.remove_default := by
  intro fields
  induction fields with
  | nil => rintro ⟨f, hf, _⟩; cases hf
  | cons g rest ih =>
    rintro ⟨f, hf, hname⟩
    rcases hgn : g.name with _ | c
    · have hfr : f ∈ rest := by
        rcases List.mem_cons.mp hf with rfl | h
        · rw [hgn] at hname; cases hname
        · exact h
      rcases ih ⟨f, hfr, hname⟩ with ⟨f', hf', hn', heq⟩
      exact ⟨f', List.mem_cons_of_mem _ hf', hn', by simp [RawField.findLoop, hgn, heq]⟩
    · by_cases hc : c = T
      · subst hc
        exact ⟨g, List.mem_cons_self _ _, hgn, by simp [RawField.findLoop, hgn]⟩
      · have hfr : f ∈ rest := by
          rcases List.mem_cons.mp hf with rfl | h
          · rw [hgn] at hname
            exact absurd (Option.some.inj hname) hc
          · exact h
        rcases ih ⟨f, hfr, hname⟩ with ⟨f', hf', hn', heq⟩
        exact ⟨f', List.mem_cons_of_mem _ hf', hn', by simp [RawField.findLoop, hgn, hc, heq]⟩

/-- C10: `RawField::is_resolved(f)` returns `true` exactly when `f` is the
`Unresolved` variant, and `false` on every other variant. -/
theorem is_resolved_iff_unresolved (f : RawField) :
    f.is_resolved = true ↔ ∃ n t d, f = RawField.Unresolved n t d := by
  cases f <;> simp [RawField.is_resolved]

/-- C8: when the protocol's top-level declarations include a record named `T`
(and, as the claim presupposes by speaking of "a record named T", every
top-level declaration named `T` is that kind of declaration), linking a field
`Unresolved(n, T, d)` produces `RecordReference(n, T, d)`; in particular the
concrete protocol `record A { string s; }` / `record B { A a; }` links `B`'s
field `a` to `RecordReference("a", "A", doc)`. -/
theorem record_reference_resolves (pn : Option Str) (fields : List RawField)
    (pns pd : Option Str) (T : Str) (n d : Option Str)
    (h1 : ∃ rf rns rd, RawField.Record (some T) rf rns rd ∈ fields)
    (h2 : ∀ f ∈ fields, f.name = some T →
      ∃ rn rf rns rd, f = RawField.Record rn rf rns rd) :
    LinkParser.parse_recurse (.Protocol pn fields pns pd) (.Unresolved n T d)
      = .ok (.RecordReference n T d) ∧
    LinkParser.parse (.Protocol (some "Event")
        [.Record (some "A") [.String (some "s") .None none] none none,
         .Record (some "B") [.Unresolved (some "a") "A" none] none none] none none)
      = .ok (.Protocol (some "Event")
        [.Record (some "A") [.String (some "s") .None none] none none,
         .Record (some "B") [.RecordReference (some "a") "A" none] none none] none none) := by
  constructor
  · rcases h1 with ⟨rf, rns, rd, hmem⟩
    rcases findLoop_some_of_mem T fields ⟨_, hmem, rfl⟩ with ⟨f, hf, hn, heq⟩
    rcases h2 f hf hn with ⟨rn', rf', rns', rd', rfl⟩
    simp [LinkParser.parse_recurse, RawField.find_field_by_name, heq, RawField.remove_default]
  · rfl

/-- C8 witness: the record-reference theorem applied to a concrete protocol. -/
theorem record_reference_resolves_witness :
    LinkParser.parse_recurse
        (.Protocol (some "P") [.Record (some "A") [] none none] none none)
        (.Unresolved (some "a") "A" none)
      = .ok (.RecordReference (some "a") "A" none) :=
  (record_reference_resolves (some "P") [.Record (some "A") [] none none] none none
    "A" (some "a") none ⟨[], none, none, List.mem_singleton.mpr rfl⟩
    (by
      rintro f hf hn
      rcases List.mem_singleton.mp hf with rfl
      exact ⟨_, _, _, _, rfl⟩)).1

/-- C1 amended: when the protocol's top-level declarations include an enum
named `T` (and every top-level declaration named `T` is an enum), linking a
field `Unresolved(n, T, d)` produces `EnumReference(n, T, NoDefault, d)`: the
reference's default slot is always `HasDefault::None`, because
`find_field_by_name` strips the referenced enum's declared default before the
linker copies it. -/
theorem enum_reference_default_stripped (pn : Option Str) (fields : List RawField)
    (pns pd : Option Str) (T : Str) (n d : Option Str)
    (h1 : ∃ syms dflt ens ed, RawField.Enum (some T) syms dflt ens ed ∈ fields)
    (h2 : ∀ f ∈ fields, f.name = some T →
      ∃ en syms dflt ens ed, f = RawField.Enum en syms dflt ens ed) :
    LinkParser.parse_recurse (.Protocol pn fields pns pd) (.Unresolved n T d)
      = .ok (.EnumReference n T .None d) := by
  rcases h1 with ⟨syms, dflt, ens, ed, hmem⟩
  rcases findLoop_some_of_mem T fields ⟨_, hmem, rfl⟩ with ⟨f, hf, hn, heq⟩
  rcases h2 f hf hn with ⟨en', syms', dflt', ens', ed', rfl⟩
  simp [LinkParser.parse_recurse, RawField.find_field_by_name, heq, RawField.remove_default]

/-- C1 amended witness: the stripped-default theorem applied to a concrete
protocol. -/
theorem enum_reference_default_stripped_witness :
    LinkParser.parse_recurse
        (.Protocol (some "P")
          [.Enum (some "M") ["X", "Y"] (.Default (some "X")) none none] none none)
        (.Unresolved (some "m") "M" none)
      = .ok (.EnumReference (some "m") "M" .None none) :=
  enum_reference_default_stripped (some "P")
    [.Enum (some "M") ["X", "Y"] (.Default (some "X")) none none] none none
    "M" (some "m") none ⟨["X", "Y"], .Default (some "X"), none, none, List.mem_singleton.mpr rfl⟩
    (by
      rintro f hf hn
      rcases List.mem_singleton.mp hf with rfl
      exact ⟨_, _, _, _, _, rfl⟩)

/-- C1 counterexample: for the protocol of the repository's own linker test
(`enum Meal { Dinner, Lunch } = Dinner;` referenced by a field `Meal meal;`),
the linked field is `EnumReference("meal", "Meal", NoDefault, doc)`, not
`EnumReference("meal", "Meal", DefaultValue("Dinner"), doc)` as the claim
requires: the referenced enum's declared default is stripped, so the claim is
false at this input. -/
theorem enum_reference_default_counterexample :
    LinkParser.parse (.Protocol (some "Event")
        [.Enum (some "Meal") ["Dinner", "Lunch"] (.Default (some "Dinner")) none none,
         .Record (some "Lol") [.Int (some "a") .None none,
           .Unresolved (some "meal") "Meal" none] none none] none none)
      = .ok (.Protocol (some "Event")
        [.Enum (some "Meal") ["Dinner", "Lunch"] (.Default (some "Dinner")) none none,
         .Record (some "Lol") [.Int (some "a") .None none,
           .EnumReference (some "meal") "Meal" .None none] none none] none none) ∧
    LinkParser.parse (.Protocol (some "Event")
        [.Enum (some "Meal") ["Dinner", "Lunch"] (.Default (some "Dinner")) none none,
         .Record (some "Lol") [.Int (some "a") .None none,
           .Unresolved (some "meal") "Meal" none] none none] none none)
      ≠ .ok (.Protocol (some "Event")
        [.Enum (some "Meal") ["Dinner", "Lunch"] (.Default (some "Dinner")) none none,
         .Record (some "Lol") [.Int (some "a") .None none,
           .EnumReference (some "meal") "Meal" (.Default (some "Dinner")) none] none none]
        none none) := by
  refine ⟨rfl, ?_⟩
  intro h
  rw [show LinkParser.parse (.Protocol (some "Event")
        [.Enum (some "Meal") ["Dinner", "Lunch"] (.Default (some "Dinner")) none none,
         .Record (some "Lol") [.Int (some "a") .None none,
           .Unresolved (some "meal") "Meal" none] none none] none none)
      = .ok (.Protocol (some "Event")
        [.Enum (some "Meal") ["Dinner", "Lunch"] (.Default (some "Dinner")) none none,
         .Record (some "Lol") [.Int (some "a") .None none,
           .EnumReference (some "meal") "Meal" .None none] none none] none none) from rfl]
    at h
  simp at h

/-- C2: linking a protocol that references an undeclared type name does not
return an `UndefinedReference` error; the `.unwrap()` on each
`parse_recurse` result in `LinkParser::parse` turns the constructed
`UndefinedReference` error into a panic. -/
theorem undefined_reference_panics :
    LinkParser.parse (.Protocol (some "Event")
        [.Record (some "Lol") [.Unresolved (some "a") "Missing" none] none none] none none)
      = .panicked (.unwrapErr
          (.UndefinedReference "Field of type \x27Missing\x27 cannot be found!")) := rfl

/-- C7: a `Protocol` nested below the root and an `Import` node reaching the
linker both construct the corresponding `InvalidASTDataType` error, but the
`.unwrap()` call sites in `LinkParser::parse` turn each into a panic instead
of a returned error. -/
theorem shape_violations_panic :
    LinkParser.parse (.Protocol (some "P")
        [.Record (some "R") [.Protocol (some "Q") [] none none] none none] none none)
      = .panicked (.unwrapErr
          (.InvalidASTDataType "\x27Protocol\x27 can only be declared once per file!")) ∧
    LinkParser.parse (.Protocol (some "P") [.Import "other.avdl"] none none)
      = .panicked (.unwrapErr
          (.InvalidASTDataType "\x27Import\x27 should have been resolved previous to Linking!")) :=
  ⟨rfl, rfl⟩

mutual

/-- On a tree free of `Unresolved`, `Import` and nested `Protocol` nodes,
`parse_recurse` is a pure pass-through. -/
theorem parse_recurse_clean (proto f : RawField) (h : linkClean f = true) :
    LinkParser.parse_recurse proto f = .ok (resolvedCounterpart f) := by
  cases f with
  | Record n fs ns ds =>
    rw [linkClean] at h
    rw [LinkParser.parse_recurse, recurseList_clean proto fs h]
    rfl
  | Union n fs d ds =>
    rw [linkClean] at h
    rw [LinkParser.parse_recurse, recurseList_clean proto fs h]
    rfl
  | Array n f d ds =>
    rw [linkClean] at h
    rw [LinkParser.parse_recurse, parse_recurse_clean proto f h]
    rfl
  | Protocol n fs ns ds => exact absurd h (by rw [linkClean]; simp)
  | Unresolved n t ds => exact absurd h (by rw [linkClean]; simp)
  | Import p => exact absurd h (by rw [linkClean]; simp)
  | Int n d ds => rfl
  | Long n d ds => rfl
  | Float n d ds => rfl
  | Double n d ds => rfl
  | Boolean n d ds => rfl
  | String n d ds => rfl
  | Enum n vs d ns ds => rfl
  | Null => rfl

/-- On a list of trees free of `Unresolved`, `Import` and `Protocol` nodes,
`recurseList` maps each tree to its counterpart, preserving order. -/
theorem recurseList_clean (proto : RawField) (fs : List RawField)
    (h : linkCleanList fs = true) :
    LinkParser.recurseList proto fs = .ok (resolvedCounterpartList fs) := by
  cases fs with
  | nil => rfl
  | cons f rest =>
    rw [linkCleanList, Bool.and_eq_true] at h
    rw [LinkParser.recurseList, parse_recurse_clean proto f h.1,
      recurseList_clean proto rest h.2]
    rfl

end

/-- C9: feeding the linker a `RawField::Protocol` whose subtrees contain no
`Unresolved`, no `Import` and no nested `Protocol` node succeeds and returns
the structurally identical `Field` tree: every variant is mapped to its
same-shaped counterpart with name, defaults, namespace, docstring and child
order unchanged. -/
theorem link_pass_through (n : Option Str) (fs : List RawField) (ns d : Option Str)
    (h : linkCleanList fs = true) :
    LinkParser.parse (.Protocol n fs ns d)
      = .ok (.Protocol n (resolvedCounterpartList fs) ns d) := by
  rw [LinkParser.parse, recurseList_clean _ fs h]
  rfl

/-- C9 witness: the pass-through theorem applied to a concrete resolved tree. -/
theorem link_pass_through_witness :
    linkCleanList [RawField.Record (some "R")
        [RawField.Int (some "a") (.Default (some 3)) none,
         RawField.Union (some "u") [RawField.Double none .None none, RawField.Null]
           (.Default none) none] none none] = true ∧
    LinkParser.parse (.Protocol (some "E")
        [RawField.Record (some "R")
          [RawField.Int (some "a") (.Default (some 3)) none,
           RawField.Union (some "u") [RawField.Double none .None none, RawField.Null]
             (.Default none) none] none none] none (some "doc"))
      = .ok (.Protocol (some "E")
        [Field.Record (some "R")
          [Field.Int (some "a") (.Default (some 3)) none,
           Field.Union (some "u") [Field.Double none .None none, Field.Null]
             (.Default none) none] none none] none (some "doc")) :=
  ⟨rfl, link_pass_through (some "E") _ none (some "doc") rfl⟩

/-! Validation of the grammar model against the repository's own lexer
tests. -/

example :
    topLevelParse "protocol Event \x7b\n\n    enum Meal \x7b\n        Dinner,\n        Lunch\n    \x7d = Dinner;\n\n    record Lol \x7b\n        int a;\n        Tob tob;\n    \x7d\n\n\x7d"
      = some (.Protocol (some "Event")
          [.Enum (some "Meal") ["Dinner", "Lunch"] (.Default (some "Dinner")) none none,
           .Record (some "Lol")
             [.Int (some "a") .None none,
              .Unresolved (some "tob") "Tob" none] none none] none none) := rfl

example :
    topLevelParse "protocol Event \x7b\n\n        record Tob \x7b\n            int? a = 3;\n            int? b;\n            int? c = null;\n        \x7d    \n    \x7d"
      = some (.Protocol (some "Event")
          [.Record (some "Tob")
            [.Union (some "a") [.Int none .None none, .Null]
               (.Default (some (Literal.Int 3))) none,
             .Union (some "b") [.Int none .None none, .Null] .None none,
             .Union (some "c") [.Int none .None none, .Null] (.Default none) none]
            none none] none none) := rfl

example :
    topLevelParse "protocol Event \x7b\n\n        record A \x7b\n            union\x7bint, float\x7d mynum;\n            union\x7bdouble, null\x7d myval3 = null;\n            union\x7bdouble, null\x7d myval4 = -0.21;\n        \x7d\n    \x7d"
      = some (.Protocol (some "Event")
          [.Record (some "A")
            [.Union (some "mynum")
               [.Int none .None none, .Float none .None none] .None none,
             .Union (some "myval3")
               [.Double none .None none, .Null] (.Default none) none,
             .Union (some "myval4")
               [.Double none .None none, .Null]
               (.Default (some (Literal.Double (parseFloat "-0.21")))) none]
            none none] none none) := rfl

example :
    topLevelParse "protocol Event \x7b\n\n        record A \x7b\n            string e;\n        \x7d\n\n        record B \x7b\n            A a;\n            A? b;\n        \x7d    \n    \x7d"
      = some (.Protocol (some "Event")
          [.Record (some "A") [.String (some "e") .None none] none none,
           .Record (some "B")
             [.Unresolved (some "a") "A" none,
              .Union (some "b") [.Unresolved none "A" none, .Null] .None none]
             none none] none none) := rfl

example :
    topLevelParse "protocol Event \x7b\n\n        record A \x7b\n            array<int> myints;\n            /** hi */\n            array<string> mystrs;\n        \x7d\n    \x7d"
      = some (.Protocol (some "Event")
          [.Record (some "A")
            [.Array (some "myints") (.Int none .None none) .None none,
             .Array (some "mystrs") (.String none .None none) .None (some "hi")]
            none none] none none) := rfl

/-- C3: a source the grammar cannot match does not yield a returned
`FailedParsing` error: the `lexer.parse(src).unwrap()` inside the
`if parse_res.is_err()` block of `parse_idl` panics on the re-parsed error
first, so the `map_err` to `FailedParsing` directly below it is dead code
for every failing input. -/
theorem failed_parsing_panics :
    parseIdlGo (fun _ => none) 1 "protocol" [] = .panicked .unwrapParseError := rfl

/-- C5: parsing `int a = null;` inside a record succeeds and attaches
`Default(None)` (`DefaultNull`) to the bare non-nullable `Int` field itself —
the shared default-value sub-grammar accepts `null` even in the
non-nullable alternative — contradicting the invariant that `DefaultNull`
only ever appears on the synthesized nullable-union wrapper. -/
theorem bare_primitive_default_null :
    parseIdlGo (fun _ => none) 1 "protocol E \x7b record A \x7b int a = null; \x7d \x7d" []
      = .ok (.Protocol (some "E")
          [.Record (some "A") [.Int (some "a") (.Default none) none] none none]
          none none) ∧
    containsBareDefaultNull
      (.Protocol (some "E")
        [.Record (some "A") [.Int (some "a") (.Default none) none] none none]
        none none) = true :=
  ⟨rfl, rfl⟩


/-- Inversion for `Res.map` producing `ok`. -/
theorem Res.map_eq_ok {α β : Type} (r : Res α) (f : α → β) (b : β) :
    r.map f = .ok b ↔ ∃ a, r = .ok a ∧ f a = b := by
  cases r <;> simp [Res.map]

/-- Unfolding `parse_idl` at positive fuel when the grammar yields a
protocol. -/
theorem parseIdlGo_succ_protocol (env : List Str → Option Str) (fuel : Nat)
    (src : Str) (path : List Str) (name : Option Str) (values : List RawField)
    (ns doc : Option Str)
    (hsrc : topLevelParse src = some (.Protocol name values ns doc)) :
    parseIdlGo env (fuel + 1) src path
      = (flattenValuesF (parseIdlGo env fuel) env ns path values).map
          (fun res => .Protocol name res ns doc) := by
  rw [show parseIdlGo env (fuel + 1) src path
      = parseIdlStep (parseIdlGo env fuel) env path (topLevelParse src) from rfl,
    hsrc]
  rfl

/-- One step of the flatten loop at an `Import` declaration that resolves
and parses to a protocol: its declarations are spliced in place, verbatim. -/
theorem flattenF_cons_import (recurse : Str → List Str → Res RawField)
    (env : List Str → Option Str) (ns : Option Str) (a : Str) (path' : List Str)
    (p isrc : Str) (iname : Option Str) (ims : List RawField) (ins idoc : Option Str)
    (rest : List RawField)
    (henv : env ((a :: path').dropLast ++ [p]) = some isrc)
    (hrec : recurse isrc ((a :: path').dropLast ++ [p])
      = .ok (.Protocol iname ims ins idoc)) :
    flattenValuesF recurse env ns (a :: path') (.Import p :: rest)
      = (flattenValuesF recurse env ns (a :: path') rest).map fun res => ims ++ res := by
  simp only [flattenValuesF, henv, hrec]

/-- The flatten loop distributes over list append when both halves succeed. -/
theorem flattenF_append (recurse : Str → List Str → Res RawField)
    (env : List Str → Option Str) (ns : Option Str) (path : List Str) :
    ∀ (vs1 out1 vs2 out2 : List RawField),
      flattenValuesF recurse env ns path vs1 = .ok out1 →
      flattenValuesF recurse env ns path vs2 = .ok out2 →
      flattenValuesF recurse env ns path (vs1 ++ vs2) = .ok (out1 ++ out2) := by
  intro vs1
  induction vs1 with
  | nil =>
    intro out1 vs2 out2 h1 h2
    simp only [flattenValuesF] at h1
    cases h1
    simpa using h2
  | cons v rest ih =>
    intro out1 vs2 out2 h1 h2
    cases v
    case Import p =>
      cases path with
      | nil =>
        simp only [flattenValuesF] at h1
        exact absurd h1 (by simp)
      | cons a path' =>
        cases henv : env ((a :: path').dropLast ++ [p]) with
        | none =>
          simp only [flattenValuesF, henv] at h1
          exact absurd h1 (by simp)
        | some isrc =>
          cases hrec : recurse isrc ((a :: path').dropLast ++ [p]) with
          | ok imported =>
            cases imported
            case Protocol iname ims ins idoc =>
              rw [flattenF_cons_import recurse env ns a path' p isrc iname ims
                ins idoc rest henv hrec] at h1
              rcases (Res.map_eq_ok _ _ _).mp h1 with ⟨res, hres, rfl⟩
              rw [List.cons_append,
                flattenF_cons_import recurse env ns a path' p isrc iname ims
                  ins idoc (rest ++ vs2) henv hrec,
                ih res vs2 out2 hres h2]
              simp [Res.map]
            all_goals
              simp only [flattenValuesF, henv, hrec] at h1
              exact absurd h1 (by simp)
          | err e =>
            simp only [flattenValuesF, henv, hrec] at h1
            exact absurd h1 (by simp)
          | panicked c =>
            simp only [flattenValuesF, henv, hrec] at h1
            exact absurd h1 (by simp)
          | noFuel =>
            simp only [flattenValuesF, henv, hrec] at h1
            exact absurd h1 (by simp)
    all_goals
      simp only [List.cons_append, flattenValuesF, List.append_eq] at h1 ⊢
      rcases (Res.map_eq_ok _ _ _).mp h1 with ⟨res, hres, rfl⟩
      rw [ih res vs2 out2 hres h2]
      simp [Res.map]

/-- C4 amended: an `Import` among a protocol's declarations is replaced by
the imported file's (already flattened) declarations, in place and in their
internal order, kept verbatim — in particular each spliced declaration keeps
the namespace its own file's parse attached, and is not rewritten to the
importing protocol's namespace — while `Record` and `Enum` declarations
literally present in the importing file do get the importing protocol's
namespace attached, overwriting theirs. -/
theorem import_splice (env : List Str → Option Str) (fuel : Nat) (ns : Option Str)
    (a : Str) (path' : List Str) (p isrc src : Str) (iname : Option Str)
    (ims : List RawField) (ins idoc rootName rootDoc : Option Str)
    (vs1 vs2 out1 out2 : List RawField)
    (henv : env ((a :: path').dropLast ++ [p]) = some isrc)
    (hrec : parseIdlGo env fuel isrc ((a :: path').dropLast ++ [p])
      = .ok (.Protocol iname ims ins idoc))
    (h1 : flattenValues env fuel ns (a :: path') vs1 = .ok out1)
    (h2 : flattenValues env fuel ns (a :: path') vs2 = .ok out2)
    (hsrc : topLevelParse src
      = some (.Protocol rootName (vs1 ++ .Import p :: vs2) ns rootDoc)) :
    parseIdlGo env (fuel + 1) src (a :: path')
      = .ok (.Protocol rootName (out1 ++ (ims ++ out2)) ns rootDoc) ∧
    (∀ (rn : Option Str) (rf : List RawField) (rns rd : Option Str)
        (rest out : List RawField),
      flattenValues env fuel ns (a :: path') rest = .ok out →
      flattenValues env fuel ns (a :: path') (.Record rn rf rns rd :: rest)
        = .ok (.Record rn rf ns rd :: out)) ∧
    (∀ (en : Option Str) (ev : List Str) (ed : HasDefault Str)
        (ens eds : Option Str) (rest out : List RawField),
      flattenValues env fuel ns (a :: path') rest = .ok out →
      flattenValues env fuel ns (a :: path') (.Enum en ev ed ens eds :: rest)
        = .ok (.Enum en ev ed ns eds :: out)) := by
  simp only [flattenValues] at h1 h2
  refine ⟨?_, ?_, ?_⟩
  · have hivs2 : flattenValuesF (parseIdlGo env fuel) env ns (a :: path')
        (.Import p :: vs2) = .ok (ims ++ out2) := by
      rw [flattenF_cons_import (parseIdlGo env fuel) env ns a path' p isrc iname
        ims ins idoc vs2 henv hrec, h2]
      rfl
    rw [parseIdlGo_succ_protocol env fuel src (a :: path') rootName
        (vs1 ++ .Import p :: vs2) ns rootDoc hsrc,
      flattenF_append (parseIdlGo env fuel) env ns (a :: path') vs1 out1
        (.Import p :: vs2) (ims ++ out2) h1 hivs2]
    rfl
  · intro rn rf rns rd rest out hrest
    simp only [flattenValues] at hrest ⊢
    simp only [flattenValuesF, hrest]
    simp [Res.map]
  · intro en ev ed ens eds rest out hrest
    simp only [flattenValues] at hrest ⊢
    simp only [flattenValuesF, hrest]
    simp [Res.map]

/-- C4 counterexample: with a root file `@namespace("ns.root") protocol Root
{ import idl "c.avdl"; }` importing `@namespace("ns.import") protocol C {
record C { } }`, the flattened protocol contains record `C` with namespace
`ns.import` — the namespace attached by the imported file's own parse — not
the importing protocol's `ns.root` required by the claim. -/
theorem import_namespace_counterexample :
    parseIdlGo
        (fun q => if q = ["c.avdl"] then
          some "@namespace(\"ns.import\") protocol C \x7b record C \x7b \x7d \x7d"
          else none)
        2 "@namespace(\"ns.root\") protocol Root \x7b import idl \"c.avdl\"; \x7d"
        ["root.avdl"]
      = .ok (.Protocol (some "Root")
          [.Record (some "C") [] (some "ns.import") none] (some "ns.root") none) ∧
    (Res.ok (.Protocol (some "Root")
        [.Record (some "C") [] (some "ns.import") none] (some "ns.root") none)
      : Res RawField)
      ≠ .ok (.Protocol (some "Root")
          [.Record (some "C") [] (some "ns.root") none] (some "ns.root") none) := by
  refine ⟨rfl, ?_⟩
  intro h
  simp at h

/-- C4 amended witness: the splice theorem applied to the concrete pair of
files above. -/
theorem import_splice_witness :
    parseIdlGo
        (fun q => if q = ["c.avdl"] then
          some "@namespace(\"ns.import\") protocol C \x7b record C \x7b \x7d \x7d"
          else none)
        2 "@namespace(\"ns.root\") protocol Root \x7b import idl \"c.avdl\"; \x7d"
        ["root.avdl"]
      = .ok (.Protocol (some "Root")
          ([] ++ ([.Record (some "C") [] (some "ns.import") none] ++ []))
          (some "ns.root") none) :=
  (import_splice
    (fun q => if q = ["c.avdl"] then
      some "@namespace(\"ns.import\") protocol C \x7b record C \x7b \x7d \x7d"
      else none)
    1 (some "ns.root") "root.avdl" [] "c.avdl"
    "@namespace(\"ns.import\") protocol C \x7b record C \x7b \x7d \x7d"
    "@namespace(\"ns.root\") protocol Root \x7b import idl \"c.avdl\"; \x7d"
    (some "C") [.Record (some "C") [] (some "ns.import") none] (some "ns.import")
    none (some "Root") none [] [] [] []
    rfl rfl rfl rfl rfl).1


/-- Character-level facts for the grammar lemmas. -/
theorem identStart_not_ws (c : Char) (h : isIdentStartChar c = true) :
    P.wsChar c = false := by
  cases hw : P.wsChar c with
  | false => rfl
  | true =>
    exfalso
    simp only [P.wsChar, Bool.or_eq_true, beq_iff_eq] at hw
    rcases hw with ((rfl | rfl) | rfl) | rfl <;> exact absurd h (by decide)

/-- An identifier-start character differs from any non-identifier-start
character. -/
theorem identStart_ne (c c' : Char) (h : isIdentStartChar c = true)
    (h' : isIdentStartChar c' = false) : ¬ (c = c') := by
  intro heq
  subst heq
  rw [h] at h'
  cases h'

/-- `takeWhile` / `dropWhile` split an appended list at the first failing
character. -/
theorem takeWhile_dropWhile_append (p : Char → Bool) :
    ∀ (l rest : List Char), (∀ c ∈ l, p c = true) →
      (∀ c, rest.head? = some c → p c = false) →
      (l ++ rest).takeWhile p = l ∧ (l ++ rest).dropWhile p = rest := by
  intro l
  induction l with
  | nil =>
    intro rest _ hrest
    cases rest with
    | nil => exact ⟨rfl, rfl⟩
    | cons c t =>
      have := hrest c rfl
      simp [List.takeWhile, List.dropWhile, this]
  | cons c t ih =>
    intro rest hl hrest
    have hc := hl c (List.mem_cons_self _ _)
    have ht := ih rest (fun x hx => hl x (List.mem_cons_of_mem _ hx)) hrest
    simp [List.takeWhile, List.dropWhile, hc, ht.1, ht.2]

/-- Rebuilding a string from its characters. -/
theorem strMk_data (s : Str) : String.mk s.data = s := by
  cases s
  rfl

/-- `text::ident()` consumes exactly a leading identifier. -/
theorem textIdent_run (cs rest : List Char) (h : isIdentList cs = true)
    (hrest : ∀ c, rest.head? = some c → isIdentContChar c = false) :
    textIdent.run (cs ++ rest) = some (String.mk cs, rest) := by
  cases cs with
  | nil => cases h
  | cons c t =>
    simp only [isIdentList, Bool.and_eq_true, List.all_eq_true] at h
    have hsplit := takeWhile_dropWhile_append isIdentContChar t rest h.2 hrest
    simp [textIdent, h.1, hsplit.1, hsplit.2]

/-- `text::keyword(k)` consumes exactly `k` when the input starts with `k`
followed by a non-identifier character. -/
theorem textKeyword_run (k : Str) (rest : List Char) (h : isIdentList k.data = true)
    (hrest : ∀ c, rest.head? = some c → isIdentContChar c = false) :
    (textKeyword k).run (k.data ++ rest) = some ((), rest) := by
  simp [textKeyword, textIdent_run k.data rest h hrest, strMk_data]

/-- `skipWs` is the identity on input not starting with whitespace. -/
theorem skipWs_not_ws (l : List Char)
    (h : ∀ c, l.head? = some c → P.wsChar c = false) : P.skipWs l = l := by
  cases l with
  | nil => rfl
  | cons c t => simp [P.skipWs, h c rfl]

/-- `skipWs` is the identity on input starting with an identifier. -/
theorem skipWs_ident (cs rest : List Char) (h : isIdentList cs = true) :
    P.skipWs (cs ++ rest) = cs ++ rest := by
  cases cs with
  | nil => cases h
  | cons c t =>
    simp only [isIdentList, Bool.and_eq_true] at h
    simp [P.skipWs, identStart_not_ws c h.1]

/-- At input starting with an identifier character, the optional docstring
parses to `None` without consuming anything. -/
theorem docstring_or_not_ident (cs rest : List Char) (h : isIdentList cs = true) :
    docstringParser.or_not.run (cs ++ rest) = some (none, cs ++ rest) := by
  cases cs with
  | nil => cases h
  | cons c t =>
    simp only [isIdentList, Bool.and_eq_true] at h
    have hws := identStart_not_ws c h.1
    have hne : ¬ (c = ('/' : Char)) := identStart_ne c _ h.1 (by decide)
    simp [P.or_not, docstringParser, P.padded, P.then_ignore, P.then_, just,
      P.skipWs, hws, hne]


/-- The nullable keyword prefix `kw? name` consumes the keyword, the
question mark and the field name, returning the name. -/
theorem npKeywordNullable_run (kw name : Str) (rest : List Char)
    (hkw : isIdentList kw.data = true) (hname : isIdentList name.data = true)
    (hrest : ∀ c, rest.head? = some c → isIdentContChar c = false) :
    (npKeywordNullable kw).run (kw.data ++ ('?' :: ' ' :: (name.data ++ rest)))
      = some (name, P.skipWs rest) := by
  have h1 : ∀ c, ('?' :: ' ' :: (name.data ++ rest)).head? = some c →
      isIdentContChar c = false := by
    intro c hc
    cases hc
    decide
  have h2 : P.skipWs (' ' :: (name.data ++ rest)) = name.data ++ rest := by
    rw [show P.skipWs (' ' :: (name.data ++ rest))
        = P.skipWs (name.data ++ rest) from rfl,
      skipWs_ident name.data rest hname]
  simp only [npKeywordNullable, P.ignore_then, P.padded, P.then_ignore]
  rw [skipWs_ident kw.data ('?' :: ' ' :: (name.data ++ rest)) hkw,
    textKeyword_run kw ('?' :: ' ' :: (name.data ++ rest)) hkw h1]
  simp [just, h2, skipWs_ident name.data rest hname,
    textIdent_run name.data rest hname hrest, strMk_data]

/-- The `= <default> ;` tail with the default sub-grammar succeeding on `v`. -/
theorem npDefault_run (dvp : P (HasDefault Str)) (v : List Char) (dv : HasDefault Str)
    (hv : ∀ c, v.head? = some c → P.wsChar c = false)
    (hdvp : dvp.run (v ++ [';']) = some (dv, [';'])) :
    (npDefault dvp).run ('=' :: ' ' :: (v ++ [';'])) = some (dv, []) := by
  have hskip : P.skipWs (v ++ [';']) = v ++ [';'] := by
    refine skipWs_not_ws (v ++ [';']) ?_
    intro c hc
    cases v with
    | nil => cases hc; decide
    | cons a t =>
      rw [show ((a :: t) ++ [';']).head? = some a from rfl] at hc
      cases hc
      exact hv _ rfl
  simp [npDefault, P.then_ignore, P.ignore_then, P.padded, just, P.skipWs,
    P.wsChar, List.append_eq, hskip, hdvp]

/-- The `= <default> ;` tail fails immediately on `;`. -/
theorem npDefault_fails (dvp : P (HasDefault Str)) :
    (npDefault dvp).run [';'] = none := by
  simp [npDefault, P.then_ignore, P.ignore_then, P.padded, just, P.skipWs, P.wsChar]


/-- The `primitive_nullable_default` alternative succeeds on
`kw? name = v;` when the default sub-grammar accepts `v`. -/
theorem npNullableDefault_run (kw name : Str) (dvp : P (HasDefault Str))
    (uff : Str → HasDefault Str → Option Str → RawField)
    (v : List Char) (dv : HasDefault Str)
    (hkw : isIdentList kw.data = true) (hname : isIdentList name.data = true)
    (hv : ∀ c, v.head? = some c → P.wsChar c = false)
    (hdvp : dvp.run (v ++ [';']) = some (dv, [';'])) :
    (npNullableDefault kw dvp uff).run
        (kw.data ++ ('?' :: ' ' :: (name.data ++ (' ' :: '=' :: ' ' :: (v ++ [';'])))))
      = some (uff name dv none, []) := by
  have hrest : ∀ c, (' ' :: '=' :: ' ' :: (v ++ [';'])).head? = some c →
      isIdentContChar c = false := by
    intro c hc
    cases hc
    decide
  simp only [npNullableDefault, P.map, P.then_]
  rw [docstring_or_not_ident kw.data ('?' :: ' ' :: (name.data ++ (' ' :: '=' :: ' ' :: (v ++ [';'])))) hkw]
  simp only [Option.some_bind]
  rw [npKeywordNullable_run kw name (' ' :: '=' :: ' ' :: (v ++ [';'])) hkw hname hrest]
  simp only [Option.some_bind]
  rw [show P.skipWs (' ' :: '=' :: ' ' :: (v ++ [';']))
      = '=' :: ' ' :: (v ++ [';']) from rfl,
    npDefault_run dvp v dv hv hdvp]
  simp [HasDefault.map]

/-- The `primitive_nullable_default` alternative fails on `kw? name;`. -/
theorem npNullableDefault_fails (kw name : Str) (dvp : P (HasDefault Str))
    (uff : Str → HasDefault Str → Option Str → RawField)
    (hkw : isIdentList kw.data = true) (hname : isIdentList name.data = true) :
    (npNullableDefault kw dvp uff).run
        (kw.data ++ ('?' :: ' ' :: (name.data ++ [';']))) = none := by
  have hrest : ∀ c, ([';'] : List Char).head? = some c →
      isIdentContChar c = false := by
    intro c hc
    cases hc
    decide
  simp only [npNullableDefault, P.map, P.then_]
  rw [docstring_or_not_ident kw.data ('?' :: ' ' :: (name.data ++ [';'])) hkw]
  simp only [Option.some_bind]
  rw [npKeywordNullable_run kw name [';'] hkw hname hrest]
  simp only [Option.some_bind]
  rw [show P.skipWs [';'] = [';'] from rfl, npDefault_fails dvp]
  rfl

/-- The `primitive_nullable_no_default` alternative succeeds on `kw? name;`. -/
theorem npNullableNoDefault_run (kw name : Str)
    (uff : Str → HasDefault Str → Option Str → RawField)
    (hkw : isIdentList kw.data = true) (hname : isIdentList name.data = true) :
    (npNullableNoDefault kw uff).run
        (kw.data ++ ('?' :: ' ' :: (name.data ++ [';'])))
      = some (uff name .None none, []) := by
  have hrest : ∀ c, ([';'] : List Char).head? = some c →
      isIdentContChar c = false := by
    intro c hc
    cases hc
    decide
  simp only [npNullableNoDefault, P.map, P.then_]
  rw [docstring_or_not_ident kw.data ('?' :: ' ' :: (name.data ++ [';'])) hkw]
  simp only [Option.some_bind]
  rw [npKeywordNullable_run kw name [';'] hkw hname hrest]
  simp only [Option.some_bind]
  rw [show P.skipWs [';'] = [';'] from rfl]
  simp [npNoDefault, P.ignored, just]

/-- Claim C6, generic in the keyword: `kw? name;` parses to the
union-factory output with no default. -/
theorem nullablePrim_noDefault (kw : Str) (dvp : P (HasDefault Str))
    (pff uff : Str → HasDefault Str → Option Str → RawField) (name : Str)
    (hkw : isIdentList kw.data = true) (hname : isIdentList name.data = true) :
    (nullablePrimitiveParser kw dvp pff uff).run
        (kw.data ++ ('?' :: ' ' :: (name.data ++ [';'])))
      = some (uff name .None none, []) := by
  simp only [nullablePrimitiveParser, choice, P.or]
  rw [npNullableDefault_fails kw name dvp uff hkw hname,
    npNullableNoDefault_run kw name uff hkw hname]
  rfl

/-- Claim C6, generic in the keyword: `kw? name = v;` parses to the
union-factory output carrying exactly the default the keyword's default
sub-grammar produced for `v` (`DefaultNull` for `null`, a value otherwise),
and nothing is attached to any other position. -/
theorem nullablePrim_withDefault (kw : Str) (dvp : P (HasDefault Str))
    (pff uff : Str → HasDefault Str → Option Str → RawField) (name : Str)
    (v : List Char) (dv : HasDefault Str)
    (hkw : isIdentList kw.data = true) (hname : isIdentList name.data = true)
    (hv : ∀ c, v.head? = some c → P.wsChar c = false)
    (hdvp : dvp.run (v ++ [';']) = some (dv, [';'])) :
    (nullablePrimitiveParser kw dvp pff uff).run
        (kw.data ++ ('?' :: ' ' :: (name.data ++ (' ' :: '=' :: ' ' :: (v ++ [';'])))))
      = some (uff name dv none, []) := by
  simp only [nullablePrimitiveParser, choice, P.or]
  rw [npNullableDefault_run kw name dvp uff v dv hkw hname hv hdvp]
  rfl


/-- C6: for every primitive keyword K, parsing `K? name;` yields
`Union[K(no default), Null]` with no default on the union; `K? name = null;`
yields the same union shape with `DefaultNull` on the union; and
`K? name = v;` for a non-null literal `v` accepted by K's default-value
sub-grammar yields `DefaultValue(Literal(v))` on the union — in every case
the inner primitive member is `K(no default)`, so the default never sits on
the inner primitive. -/
theorem nullable_desugaring :
    ((∀ name : Str, isIdentList name.data = true →
      createIntDefaultParser.run ("int".data ++ ('?' :: ' ' :: (name.data ++ [';'])))
        = some (.Union (some name) [.Int none .None none, .Null] .None none, [])) ∧
    (∀ name : Str, isIdentList name.data = true →
      createIntDefaultParser.run ("int".data ++ ('?' :: ' ' :: (name.data ++
          (' ' :: '=' :: ' ' :: (('n' :: 'u' :: 'l' :: 'l' :: []) ++ [';'])))))
        = some (.Union (some name) [.Int none .None none, .Null] (.Default none) none, [])) ∧
    (∀ (name : Str) (v : List Char) (s : Str), isIdentList name.data = true →
      (∀ c, v.head? = some c → P.wsChar c = false) →
      intDefaultValueP.run (v ++ [';']) = some (.Default (some s), [';']) →
      createIntDefaultParser.run ("int".data ++ ('?' :: ' ' :: (name.data ++
          (' ' :: '=' :: ' ' :: (v ++ [';'])))))
        = some (.Union (some name) [.Int none .None none, .Null]
            (.Default (some (Literal.Int (parseI32 s)))) none, []))) ∧
    ((∀ name : Str, isIdentList name.data = true →
      createLongDefaultParser.run ("long".data ++ ('?' :: ' ' :: (name.data ++ [';'])))
        = some (.Union (some name) [.Long none .None none, .Null] .None none, [])) ∧
    (∀ name : Str, isIdentList name.data = true →
      createLongDefaultParser.run ("long".data ++ ('?' :: ' ' :: (name.data ++
          (' ' :: '=' :: ' ' :: (('n' :: 'u' :: 'l' :: 'l' :: []) ++ [';'])))))
        = some (.Union (some name) [.Long none .None none, .Null] (.Default none) none, [])) ∧
    (∀ (name : Str) (v : List Char) (s : Str), isIdentList name.data = true →
      (∀ c, v.head? = some c → P.wsChar c = false) →
      longDefaultValueP.run (v ++ [';']) = some (.Default (some s), [';']) →
      createLongDefaultParser.run ("long".data ++ ('?' :: ' ' :: (name.data ++
          (' ' :: '=' :: ' ' :: (v ++ [';'])))))
        = some (.Union (some name) [.Long none .None none, .Null]
            (.Default (some (Literal.Long (parseI64 s)))) none, []))) ∧
    ((∀ name : Str, isIdentList name.data = true →
      createFloatDefaultParser.run ("float".data ++ ('?' :: ' ' :: (name.data ++ [';'])))
        = some (.Union (some name) [.Float none .None none, .Null] .None none, [])) ∧
    (∀ name : Str, isIdentList name.data = true →
      createFloatDefaultParser.run ("float".data ++ ('?' :: ' ' :: (name.data ++
          (' ' :: '=' :: ' ' :: (('n' :: 'u' :: 'l' :: 'l' :: []) ++ [';'])))))
        = some (.Union (some name) [.Float none .None none, .Null] (.Default none) none, [])) ∧
    (∀ (name : Str) (v : List Char) (s : Str), isIdentList name.data = true →
      (∀ c, v.head? = some c → P.wsChar c = false) →
      floatDefaultValueP.run (v ++ [';']) = some (.Default (some s), [';']) →
      createFloatDefaultParser.run ("float".data ++ ('?' :: ' ' :: (name.data ++
          (' ' :: '=' :: ' ' :: (v ++ [';'])))))
        = some (.Union (some name) [.Float none .None none, .Null]
            (.Default (some (Literal.Float (parseFloat s)))) none, []))) ∧
    ((∀ name : Str, isIdentList name.data = true →
      createDoubleDefaultParser.run ("double".data ++ ('?' :: ' ' :: (name.data ++ [';'])))
        = some (.Union (some name) [.Double none .None none, .Null] .None none, [])) ∧
    (∀ name : Str, isIdentList name.data = true →
      createDoubleDefaultParser.run ("double".data ++ ('?' :: ' ' :: (name.data ++
          (' ' :: '=' :: ' ' :: (('n' :: 'u' :: 'l' :: 'l' :: []) ++ [';'])))))
        = some (.Union (some name) [.Double none .None none, .Null] (.Default none) none, [])) ∧
    (∀ (name : Str) (v : List Char) (s : Str), isIdentList name.data = true →
      (∀ c, v.head? = some c → P.wsChar c = false) →
      doubleDefaultValueP.run (v ++ [';']) = some (.Default (some s), [';']) →
      createDoubleDefaultParser.run ("double".data ++ ('?' :: ' ' :: (name.data ++
          (' ' :: '=' :: ' ' :: (v ++ [';'])))))
        = some (.Union (some name) [.Double none .None none, .Null]
            (.Default (some (Literal.Double (parseFloat s)))) none, []))) ∧
    ((∀ name : Str, isIdentList name.data = true →
      createBoolDefaultParser.run ("boolean".data ++ ('?' :: ' ' :: (name.data ++ [';'])))
        = some (.Union (some name) [.Boolean none .None none, .Null] .None none, [])) ∧
    (∀ name : Str, isIdentList name.data = true →
      createBoolDefaultParser.run ("boolean".data ++ ('?' :: ' ' :: (name.data ++
          (' ' :: '=' :: ' ' :: (('n' :: 'u' :: 'l' :: 'l' :: []) ++ [';'])))))
        = some (.Union (some name) [.Boolean none .None none, .Null] (.Default none) none, [])) ∧
    (∀ (name : Str) (v : List Char) (s : Str), isIdentList name.data = true →
      (∀ c, v.head? = some c → P.wsChar c = false) →
      boolDefaultValueP.run (v ++ [';']) = some (.Default (some s), [';']) →
      createBoolDefaultParser.run ("boolean".data ++ ('?' :: ' ' :: (name.data ++
          (' ' :: '=' :: ' ' :: (v ++ [';'])))))
        = some (.Union (some name) [.Boolean none .None none, .Null]
            (.Default (some (Literal.Boolean (parseBool s)))) none, []))) ∧
    ((∀ name : Str, isIdentList name.data = true →
      createStringDefaultParser.run ("string".data ++ ('?' :: ' ' :: (name.data ++ [';'])))
        = some (.Union (some name) [.String none .None none, .Null] .None none, [])) ∧
    (∀ name : Str, isIdentList name.data = true →
      createStringDefaultParser.run ("string".data ++ ('?' :: ' ' :: (name.data ++
          (' ' :: '=' :: ' ' :: (('n' :: 'u' :: 'l' :: 'l' :: []) ++ [';'])))))
        = some (.Union (some name) [.String none .None none, .Null] (.Default none) none, [])) ∧
    (∀ (name : Str) (v : List Char) (s : Str), isIdentList name.data = true →
      (∀ c, v.head? = some c → P.wsChar c = false) →
      stringDefaultValueP.run (v ++ [';']) = some (.Default (some s), [';']) →
      createStringDefaultParser.run ("string".data ++ ('?' :: ' ' :: (name.data ++
          (' ' :: '=' :: ' ' :: (v ++ [';'])))))
        = some (.Union (some name) [.String none .None none, .Null]
            (.Default (some (Literal.String s))) none, []))) :=
  ⟨⟨fun name h => nullablePrim_noDefault "int" intDefaultValueP _ _ name (by decide) h,
     fun name h => nullablePrim_withDefault "int" intDefaultValueP _ _ name
       ('n' :: 'u' :: 'l' :: 'l' :: []) (.Default none) (by decide) h
       (by intro c hc; cases hc; decide) (by rfl),
     fun name v s h hv hdvp => nullablePrim_withDefault "int" intDefaultValueP _ _ name v
       (.Default (some s)) (by decide) h hv hdvp⟩,
   ⟨fun name h => nullablePrim_noDefault "long" longDefaultValueP _ _ name (by decide) h,
     fun name h => nullablePrim_withDefault "long" longDefaultValueP _ _ name
       ('n' :: 'u' :: 'l' :: 'l' :: []) (.Default none) (by decide) h
       (by intro c hc; cases hc; decide) (by rfl),
     fun name v s h hv hdvp => nullablePrim_withDefault "long" longDefaultValueP _ _ name v
       (.Default (some s)) (by decide) h hv hdvp⟩,
   ⟨fun name h => nullablePrim_noDefault "float" floatDefaultValueP _ _ name (by decide) h,
     fun name h => nullablePrim_withDefault "float" floatDefaultValueP _ _ name
       ('n' :: 'u' :: 'l' :: 'l' :: []) (.Default none) (by decide) h
       (by intro c hc; cases hc; decide) (by rfl),
     fun name v s h hv hdvp => nullablePrim_withDefault "float" floatDefaultValueP _ _ name v
       (.Default (some s)) (by decide) h hv hdvp⟩,
   ⟨fun name h => nullablePrim_noDefault "double" doubleDefaultValueP _ _ name (by decide) h,
     fun name h => nullablePrim_withDefault "double" doubleDefaultValueP _ _ name
       ('n' :: 'u' :: 'l' :: 'l' :: []) (.Default none) (by decide) h
       (by intro c hc; cases hc; decide) (by rfl),
     fun name v s h hv hdvp => nullablePrim_withDefault "double" doubleDefaultValueP _ _ name v
       (.Default (some s)) (by decide) h hv hdvp⟩,
   ⟨fun name h => nullablePrim_noDefault "boolean" boolDefaultValueP _ _ name (by decide) h,
     fun name h => nullablePrim_withDefault "boolean" boolDefaultValueP _ _ name
       ('n' :: 'u' :: 'l' :: 'l' :: []) (.Default none) (by decide) h
       (by intro c hc; cases hc; decide) (by rfl),
     fun name v s h hv hdvp => nullablePrim_withDefault "boolean" boolDefaultValueP _ _ name v
       (.Default (some s)) (by decide) h hv hdvp⟩,
   ⟨fun name h => nullablePrim_noDefault "string" stringDefaultValueP _ _ name (by decide) h,
     fun name h => nullablePrim_withDefault "string" stringDefaultValueP _ _ name
       ('n' :: 'u' :: 'l' :: 'l' :: []) (.Default none) (by decide) h
       (by intro c hc; cases hc; decide) (by rfl),
     fun name v s h hv hdvp => nullablePrim_withDefault "string" stringDefaultValueP _ _ name v
       (.Default (some s)) (by decide) h hv hdvp⟩⟩

/-- C6 witness: the desugaring theorem applied, for each primitive keyword,
to the concrete field name `a` and a concrete literal default. -/
theorem nullable_desugaring_witness :
    ((createIntDefaultParser.run ("int".data ++ ('?' :: ' ' :: ("a".data ++ [';'])))
      = some (.Union (some "a") [.Int none .None none, .Null] .None none, [])) ∧
    (createIntDefaultParser.run ("int".data ++ ('?' :: ' ' :: ("a".data ++
        (' ' :: '=' :: ' ' :: (('n' :: 'u' :: 'l' :: 'l' :: []) ++ [';'])))))
      = some (.Union (some "a") [.Int none .None none, .Null] (.Default none) none, [])) ∧
    (createIntDefaultParser.run ("int".data ++ ('?' :: ' ' :: ("a".data ++
        (' ' :: '=' :: ' ' :: (('3' :: []) ++ [';'])))))
      = some (.Union (some "a") [.Int none .None none, .Null] (.Default (some (Literal.Int (parseI32 "3")))) none, []))) ∧
    ((createLongDefaultParser.run ("long".data ++ ('?' :: ' ' :: ("a".data ++ [';'])))
      = some (.Union (some "a") [.Long none .None none, .Null] .None none, [])) ∧
    (createLongDefaultParser.run ("long".data ++ ('?' :: ' ' :: ("a".data ++
        (' ' :: '=' :: ' ' :: (('n' :: 'u' :: 'l' :: 'l' :: []) ++ [';'])))))
      = some (.Union (some "a") [.Long none .None none, .Null] (.Default none) none, [])) ∧
    (createLongDefaultParser.run ("long".data ++ ('?' :: ' ' :: ("a".data ++
        (' ' :: '=' :: ' ' :: (('4' :: []) ++ [';'])))))
      = some (.Union (some "a") [.Long none .None none, .Null] (.Default (some (Literal.Long (parseI64 "4")))) none, []))) ∧
    ((createFloatDefaultParser.run ("float".data ++ ('?' :: ' ' :: ("a".data ++ [';'])))
      = some (.Union (some "a") [.Float none .None none, .Null] .None none, [])) ∧
    (createFloatDefaultParser.run ("float".data ++ ('?' :: ' ' :: ("a".data ++
        (' ' :: '=' :: ' ' :: (('n' :: 'u' :: 'l' :: 'l' :: []) ++ [';'])))))
      = some (.Union (some "a") [.Float none .None none, .Null] (.Default none) none, [])) ∧
    (createFloatDefaultParser.run ("float".data ++ ('?' :: ' ' :: ("a".data ++
        (' ' :: '=' :: ' ' :: (('1' :: '.' :: '5' :: []) ++ [';'])))))
      = some (.Union (some "a") [.Float none .None none, .Null] (.Default (some (Literal.Float (parseFloat "1.5")))) none, []))) ∧
    ((createDoubleDefaultParser.run ("double".data ++ ('?' :: ' ' :: ("a".data ++ [';'])))
      = some (.Union (some "a") [.Double none .None none, .Null] .None none, [])) ∧
    (createDoubleDefaultParser.run ("double".data ++ ('?' :: ' ' :: ("a".data ++
        (' ' :: '=' :: ' ' :: (('n' :: 'u' :: 'l' :: 'l' :: []) ++ [';'])))))
      = some (.Union (some "a") [.Double none .None none, .Null] (.Default none) none, [])) ∧
    (createDoubleDefaultParser.run ("double".data ++ ('?' :: ' ' :: ("a".data ++
        (' ' :: '=' :: ' ' :: (('2' :: '.' :: '5' :: []) ++ [';'])))))
      = some (.Union (some "a") [.Double none .None none, .Null] (.Default (some (Literal.Double (parseFloat "2.5")))) none, []))) ∧
    ((createBoolDefaultParser.run ("boolean".data ++ ('?' :: ' ' :: ("a".data ++ [';'])))
      = some (.Union (some "a") [.Boolean none .None none, .Null] .None none, [])) ∧
    (createBoolDefaultParser.run ("boolean".data ++ ('?' :: ' ' :: ("a".data ++
        (' ' :: '=' :: ' ' :: (('n' :: 'u' :: 'l' :: 'l' :: []) ++ [';'])))))
      = some (.Union (some "a") [.Boolean none .None none, .Null] (.Default none) none, [])) ∧
    (createBoolDefaultParser.run ("boolean".data ++ ('?' :: ' ' :: ("a".data ++
        (' ' :: '=' :: ' ' :: (('t' :: 'r' :: 'u' :: 'e' :: []) ++ [';'])))))
      = some (.Union (some "a") [.Boolean none .None none, .Null] (.Default (some (Literal.Boolean (parseBool "true")))) none, []))) ∧
    ((createStringDefaultParser.run ("string".data ++ ('?' :: ' ' :: ("a".data ++ [';'])))
      = some (.Union (some "a") [.String none .None none, .Null] .None none, [])) ∧
    (createStringDefaultParser.run ("string".data ++ ('?' :: ' ' :: ("a".data ++
        (' ' :: '=' :: ' ' :: (('n' :: 'u' :: 'l' :: 'l' :: []) ++ [';'])))))
      = some (.Union (some "a") [.String none .None none, .Null] (.Default none) none, [])) ∧
    (createStringDefaultParser.run ("string".data ++ ('?' :: ' ' :: ("a".data ++
        (' ' :: '=' :: ' ' :: (('\x22' :: 'h' :: 'i' :: '\x22' :: []) ++ [';'])))))
      = some (.Union (some "a") [.String none .None none, .Null] (.Default (some (Literal.String "hi"))) none, []))) :=
  ⟨⟨nullable_desugaring.1.1 "a" (by decide),
     nullable_desugaring.1.2.1 "a" (by decide),
     nullable_desugaring.1.2.2 "a" ('3' :: []) "3" (by decide)
       (by intro c hc; cases hc; decide) (by rfl)⟩,
   ⟨nullable_desugaring.2.1.1 "a" (by decide),
     nullable_desugaring.2.1.2.1 "a" (by decide),
     nullable_desugaring.2.1.2.2 "a" ('4' :: []) "4" (by decide)
       (by intro c hc; cases hc; decide) (by rfl)⟩,
   ⟨nullable_desugaring.2.2.1.1 "a" (by decide),
     nullable_desugaring.2.2.1.2.1 "a" (by decide),
     nullable_desugaring.2.2.1.2.2 "a" ('1' :: '.' :: '5' :: []) "1.5" (by decide)
       (by intro c hc; cases hc; decide) (by rfl)⟩,
   ⟨nullable_desugaring.2.2.2.1.1 "a" (by decide),
     nullable_desugaring.2.2.2.1.2.1 "a" (by decide),
     nullable_desugaring.2.2.2.1.2.2 "a" ('2' :: '.' :: '5' :: []) "2.5" (by decide)
       (by intro c hc; cases hc; decide) (by rfl)⟩,
   ⟨nullable_desugaring.2.2.2.2.1.1 "a" (by decide),
     nullable_desugaring.2.2.2.2.1.2.1 "a" (by decide),
     nullable_desugaring.2.2.2.2.1.2.2 "a" ('t' :: 'r' :: 'u' :: 'e' :: []) "true" (by decide)
       (by intro c hc; cases hc; decide) (by rfl)⟩,
   ⟨nullable_desugaring.2.2.2.2.2.1 "a" (by decide),
     nullable_desugaring.2.2.2.2.2.2.1 "a" (by decide),
     nullable_desugaring.2.2.2.2.2.2.2 "a" ('\x22' :: 'h' :: 'i' :: '\x22' :: []) "hi" (by decide)
       (by intro c hc; cases hc; decide) (by rfl)⟩⟩

end AvroIdl
